import Mathlib

/-!
# WindowsStoreC++Demo: the two click handlers of `MainPage`

A shallow embedding of `Clients/WindowsStoreC++Demo/MainPage.xaml.cpp`.

* A handle `T^` is an `Option`: `none` is `nullptr`.
* The barcode library (ZXing) is not part of the page; it is a parameter
  `Library` holding the writer's `Write` and the reader's `Decode` as functions.
* A handler is a function from the page state to the new page state together
  with the list of effects it performed, in program order.
-/

namespace WindowsStoreCppDemo

/-- Nullable reference `T^`; `none` stands for `nullptr`. -/
abbrev Handle (α : Type) : Type := Option α

/-- The part of `ZXing::Result` the page reads: its `Text` property. -/
structure Result where
  Text : String
  deriving DecidableEq, Repr

/-- The part of a `BarcodeWriter` object the page touches: its `Format` property. -/
structure BarcodeWriter (Fmt : Type) where
  Format : Fmt
  deriving DecidableEq, Repr

/-- The external barcode library, taken as a parameter.
`QR_CODE` is `BarcodeFormat::QR_CODE`, `newWriterFormat` is the `Format` of a
freshly constructed `BarcodeWriter`, `Write` is `BarcodeWriter::Write` (it sees
the writer object and the contents) and `Decode` is `BarcodeReader::Decode` of a
freshly constructed reader. -/
structure Library (Fmt Bitmap : Type) where
  QR_CODE : Fmt
  newWriterFormat : Fmt
  Write : BarcodeWriter Fmt → String → Handle Bitmap
  Decode : Handle Bitmap → Handle Result

/-- The argument of `Control::Focus`; the page only uses `Pointer`. -/
inductive FocusState where
  | Unfocused
  | Pointer
  | Keyboard
  | Programmatic
  deriving DecidableEq, Repr

/-- The state of the page: the `Text` of `txtInputText`, the member
`lastBitmap`, the `Source` of `imgPlaceHolder` and the `Text` of
`txtDecodedText`. -/
structure MainPage (Bitmap : Type) where
  txtInputText : String
  lastBitmap : Handle Bitmap
  imgPlaceHolder : Handle Bitmap
  txtDecodedText : String
  deriving DecidableEq, Repr

/-- What a handler does besides assigning to the page state. -/
inductive Effect (Fmt Bitmap : Type) where
  /-- The call `ref new MessageDialog(content)` followed by `ShowAsync()`. -/
  | showDialog (content : String)
  /-- The call `txtInputText->Focus(state)`. -/
  | focusInputText (state : FocusState)
  /-- The call `barcodeWriter->Write(contents)`. -/
  | write (barcodeWriter : BarcodeWriter Fmt) (contents : String)
  /-- The call `barcodeReader->Decode(bitmap)`. -/
  | decode (bitmap : Handle Bitmap)
  deriving DecidableEq, Repr

/-- The test `String::IsEmpty`: the string has no characters. -/
def IsEmpty (s : String) : Bool := s.length == 0

/-- The constructor `MainPage::MainPage()`: `lastBitmap` is a null handle and
the image has no source; the texts of the two text fields come from the markup
and are parameters here. -/
def MainPage.new {Bitmap : Type} (txtInputText txtDecodedText : String) : MainPage Bitmap :=
  { txtInputText := txtInputText
    lastBitmap := none
    imgPlaceHolder := none
    txtDecodedText := txtDecodedText }

/-- The handler `MainPage::OnNavigatedTo`: its body only discards its parameter. -/
def OnNavigatedTo {Fmt Bitmap : Type} (page : MainPage Bitmap) :
    MainPage Bitmap × List (Effect Fmt Bitmap) :=
  (page, [])

/-- The handler `MainPage::btnName_Click`. -/
def btnName_Click {Fmt Bitmap : Type} (lib : Library Fmt Bitmap) (page : MainPage Bitmap) :
    MainPage Bitmap × List (Effect Fmt Bitmap) :=
  let strName := page.txtInputText
  if IsEmpty strName then
    (page, [Effect.showDialog "Plz Enter Some Text ", Effect.focusInputText FocusState.Pointer])
  else
    let barcodeWriter : BarcodeWriter Fmt := { Format := lib.newWriterFormat }
    let barcodeWriter : BarcodeWriter Fmt := { barcodeWriter with Format := lib.QR_CODE }
    let page := { page with lastBitmap := lib.Write barcodeWriter strName }
    let page := { page with imgPlaceHolder := page.lastBitmap }
    (page, [Effect.write barcodeWriter strName])

/-- The handler `MainPage::btnDecode_Click`. -/
def btnDecode_Click {Fmt Bitmap : Type} (lib : Library Fmt Bitmap) (page : MainPage Bitmap) :
    MainPage Bitmap × List (Effect Fmt Bitmap) :=
  let result := lib.Decode page.lastBitmap
  match result with
  | some r => ({ page with txtDecodedText := r.Text }, [Effect.decode page.lastBitmap])
  | none => (page, [Effect.decode page.lastBitmap])

/-- What can happen to the page: the three handlers of the source, and the
user replacing the contents of the input text box. -/
inductive Event where
  | OnNavigatedTo
  | btnName_Click
  | btnDecode_Click
  | userTypes (text : String)
  deriving DecidableEq, Repr

/-- One event applied to the page. -/
def step {Fmt Bitmap : Type} (lib : Library Fmt Bitmap) (page : MainPage Bitmap) :
    Event → MainPage Bitmap × List (Effect Fmt Bitmap)
  | Event.OnNavigatedTo => OnNavigatedTo page
  | Event.btnName_Click => btnName_Click lib page
  | Event.btnDecode_Click => btnDecode_Click lib page
  | Event.userTypes text => ({ page with txtInputText := text }, [])

/-- A finite sequence of events applied in order; the effects are concatenated. -/
def run {Fmt Bitmap : Type} (lib : Library Fmt Bitmap) :
    List Event → MainPage Bitmap → MainPage Bitmap × List (Effect Fmt Bitmap)
  | [], page => (page, [])
  | ev :: evs, page =>
    let r := step lib page ev
    let rest := run lib evs r.1
    (rest.1, r.2 ++ rest.2)

/-- An effect that is a call of the writer. -/
def Effect.isWriterCall {Fmt Bitmap : Type} : Effect Fmt Bitmap → Bool
  | Effect.write _ _ => true
  | _ => false

/-- An effect that is a call of the reader. -/
def Effect.isReaderCall {Fmt Bitmap : Type} : Effect Fmt Bitmap → Bool
  | Effect.decode _ => true
  | _ => false

/-- An effect that is a call into the barcode library. -/
def Effect.isLibraryCall {Fmt Bitmap : Type} (e : Effect Fmt Bitmap) : Bool :=
  e.isWriterCall || e.isReaderCall

/-- An effect that shows a message dialog. -/
def Effect.isDialog {Fmt Bitmap : Type} : Effect Fmt Bitmap → Bool
  | Effect.showDialog _ => true
  | _ => false

/-- The text of the most recent `btnName_Click` of `evs` that passed the
empty-input check, when the input text is `input` before `evs` and `last` is
that text before `evs`. -/
def lastEncodedText : List Event → String → Option String → Option String
  | [], _, last => last
  | Event.userTypes text :: evs, _, last => lastEncodedText evs text last
  | Event.btnName_Click :: evs, input, last =>
    lastEncodedText evs input (if IsEmpty input then last else some input)
  | Event.OnNavigatedTo :: evs, input, last => lastEncodedText evs input last
  | Event.btnDecode_Click :: evs, input, last => lastEncodedText evs input last

/-- The bitmap the page holds when `last` is the text of the most recent
accepted `btnName_Click` and `start` was the bitmap before any was accepted. -/
def bitmapOf {Fmt Bitmap : Type} (lib : Library Fmt Bitmap) (start : Handle Bitmap) :
    Option String → Handle Bitmap
  | none => start
  | some s => lib.Write { Format := lib.QR_CODE } s

/-- A sample library used to evaluate the handlers: formats are numbers, `7` is
`QR_CODE`, a bitmap is the pair of the format and the text it was written
from, and decoding reads the text back. -/
def sampleLib : Library Nat (Nat × String) where
  QR_CODE := 7
  newWriterFormat := 0
  Write := fun w s => some (w.Format, s)
  Decode := fun b => b.map (fun p => { Text := p.2 })

/-- A sample library whose reader never finds a barcode. -/
def blindLib : Library Nat (Nat × String) where
  QR_CODE := 7
  newWriterFormat := 0
  Write := fun w s => some (w.Format, s)
  Decode := fun _ => none

/-! ## Auxiliary lemmas -/

theorem IsEmpty_iff (s : String) : IsEmpty s = true ↔ s = "" := by
  cases s with
  | mk data =>
    cases data with
    | nil => simp [IsEmpty]
    | cons c cs =>
      simp only [IsEmpty, String.length, List.length_cons]
      constructor
      · intro h; simp at h
      · intro h; exact absurd (congrArg String.data h) (by simp)

theorem IsEmpty_false_iff (s : String) : IsEmpty s = false ↔ s ≠ "" := by
  have := IsEmpty_iff s
  cases h : IsEmpty s <;> simp_all

theorem IsEmpty_false_of_length (s : String) (h : 1 ≤ s.length) : IsEmpty s = false := by
  simp only [IsEmpty, beq_eq_false_iff_ne, ne_eq]
  omega

theorem btnName_Click_of_empty {Fmt Bitmap : Type} (lib : Library Fmt Bitmap)
    (page : MainPage Bitmap) (h : IsEmpty page.txtInputText = true) :
    btnName_Click lib page
      = (page, [Effect.showDialog "Plz Enter Some Text ",
                Effect.focusInputText FocusState.Pointer]) := by
  simp [btnName_Click, h]

theorem btnName_Click_of_nonempty {Fmt Bitmap : Type} (lib : Library Fmt Bitmap)
    (page : MainPage Bitmap) (h : IsEmpty page.txtInputText = false) :
    btnName_Click lib page
      = ({ page with
            lastBitmap := lib.Write { Format := lib.QR_CODE } page.txtInputText
            imgPlaceHolder := lib.Write { Format := lib.QR_CODE } page.txtInputText },
         [Effect.write { Format := lib.QR_CODE } page.txtInputText]) := by
  simp [btnName_Click, h]

theorem btnDecode_Click_effects {Fmt Bitmap : Type} (lib : Library Fmt Bitmap)
    (page : MainPage Bitmap) :
    (btnDecode_Click lib page).2 = [Effect.decode page.lastBitmap] := by
  unfold btnDecode_Click
  cases lib.Decode page.lastBitmap <;> rfl

theorem btnDecode_Click_of_some {Fmt Bitmap : Type} (lib : Library Fmt Bitmap)
    (page : MainPage Bitmap) (r : Result) (h : lib.Decode page.lastBitmap = some r) :
    (btnDecode_Click lib page).1 = { page with txtDecodedText := r.Text } := by
  simp [btnDecode_Click, h]

theorem btnDecode_Click_of_none {Fmt Bitmap : Type} (lib : Library Fmt Bitmap)
    (page : MainPage Bitmap) (h : lib.Decode page.lastBitmap = none) :
    (btnDecode_Click lib page).1 = page := by
  simp [btnDecode_Click, h]

theorem btnDecode_Click_frame {Fmt Bitmap : Type} (lib : Library Fmt Bitmap)
    (page : MainPage Bitmap) :
    (btnDecode_Click lib page).1.lastBitmap = page.lastBitmap
    ∧ (btnDecode_Click lib page).1.imgPlaceHolder = page.imgPlaceHolder
    ∧ (btnDecode_Click lib page).1.txtInputText = page.txtInputText := by
  unfold btnDecode_Click
  cases lib.Decode page.lastBitmap <;> exact ⟨rfl, rfl, rfl⟩

theorem btnName_Click_frame {Fmt Bitmap : Type} (lib : Library Fmt Bitmap)
    (page : MainPage Bitmap) :
    (btnName_Click lib page).1.txtDecodedText = page.txtDecodedText
    ∧ (btnName_Click lib page).1.txtInputText = page.txtInputText := by
  cases h : IsEmpty page.txtInputText
  · rw [btnName_Click_of_nonempty lib page h]; exact ⟨rfl, rfl⟩
  · rw [btnName_Click_of_empty lib page h]; exact ⟨rfl, rfl⟩

theorem run_nil {Fmt Bitmap : Type} (lib : Library Fmt Bitmap) (page : MainPage Bitmap) :
    run lib [] page = (page, []) := rfl

theorem run_cons {Fmt Bitmap : Type} (lib : Library Fmt Bitmap) (ev : Event)
    (evs : List Event) (page : MainPage Bitmap) :
    run lib (ev :: evs) page
      = ((run lib evs (step lib page ev).1).1,
         (step lib page ev).2 ++ (run lib evs (step lib page ev).1).2) := rfl

theorem run_append {Fmt Bitmap : Type} (lib : Library Fmt Bitmap) (xs ys : List Event)
    (page : MainPage Bitmap) :
    run lib (xs ++ ys) page
      = ((run lib ys (run lib xs page).1).1,
         (run lib xs page).2 ++ (run lib ys (run lib xs page).1).2) := by
  induction xs generalizing page with
  | nil => simp [run_nil]
  | cons x xs ih => simp [run_cons, ih, List.append_assoc]

theorem run_lastBitmap_aux {Fmt Bitmap : Type} (lib : Library Fmt Bitmap)
    (start : Handle Bitmap) (evs : List Event) :
    ∀ (page : MainPage Bitmap) (last : Option String),
      page.lastBitmap = bitmapOf lib start last →
      (run lib evs page).1.lastBitmap
        = bitmapOf lib start (lastEncodedText evs page.txtInputText last) := by
  induction evs with
  | nil => intro page last h; simpa [run_nil, lastEncodedText] using h
  | cons ev evs ih =>
    intro page last h
    rw [run_cons]
    cases ev with
    | OnNavigatedTo => exact ih page last h
    | btnDecode_Click =>
      have hf := btnDecode_Click_frame lib page
      have := ih (btnDecode_Click lib page).1 last (by rw [hf.1]; exact h)
      simpa [step, lastEncodedText, hf.2.2] using this
    | userTypes text =>
      exact ih { page with txtInputText := text } last h
    | btnName_Click =>
      cases he : IsEmpty page.txtInputText
      · have := ih (btnName_Click lib page).1 (some page.txtInputText)
          (by rw [btnName_Click_of_nonempty lib page he]; rfl)
        simpa [step, lastEncodedText, he, (btnName_Click_frame lib page).2] using this
      · have := ih (btnName_Click lib page).1 last
          (by rw [btnName_Click_of_empty lib page he]; exact h)
        simpa [step, lastEncodedText, he, (btnName_Click_frame lib page).2] using this

theorem run_invariant {Fmt Bitmap : Type} (lib : Library Fmt Bitmap) (evs : List Event) :
    ∀ page : MainPage Bitmap, page.imgPlaceHolder = page.lastBitmap →
      (run lib evs page).1.imgPlaceHolder = (run lib evs page).1.lastBitmap := by
  induction evs with
  | nil => intro page h; exact h
  | cons ev evs ih =>
    intro page h
    rw [run_cons]
    apply ih
    cases ev with
    | OnNavigatedTo => exact h
    | btnDecode_Click =>
      have hf := btnDecode_Click_frame lib page
      show (btnDecode_Click lib page).1.imgPlaceHolder = (btnDecode_Click lib page).1.lastBitmap
      rw [hf.1, hf.2.1]; exact h
    | userTypes text => exact h
    | btnName_Click =>
      show (btnName_Click lib page).1.imgPlaceHolder = (btnName_Click lib page).1.lastBitmap
      cases he : IsEmpty page.txtInputText
      · rw [btnName_Click_of_nonempty lib page he]
      · rw [btnName_Click_of_empty lib page he]; exact h

theorem run_txtDecodedText {Fmt Bitmap : Type} (lib : Library Fmt Bitmap) (evs : List Event) :
    ∀ page : MainPage Bitmap, (∀ ev ∈ evs, ev ≠ Event.btnDecode_Click) →
      (run lib evs page).1.txtDecodedText = page.txtDecodedText := by
  induction evs with
  | nil => intro page _; rfl
  | cons ev evs ih =>
    intro page h
    rw [run_cons]
    rw [ih _ (fun e he => h e (List.mem_cons_of_mem _ he))]
    cases ev with
    | OnNavigatedTo => rfl
    | btnDecode_Click => exact absurd rfl (h _ (List.mem_cons_self _ _))
    | userTypes text => rfl
    | btnName_Click => exact (btnName_Click_frame lib page).1

theorem run_lastBitmap_of_no_encode {Fmt Bitmap : Type} (lib : Library Fmt Bitmap)
    (evs : List Event) :
    ∀ page : MainPage Bitmap, (∀ ev ∈ evs, ev ≠ Event.btnName_Click) →
      (run lib evs page).1.lastBitmap = page.lastBitmap := by
  induction evs with
  | nil => intro page _; rfl
  | cons ev evs ih =>
    intro page h
    rw [run_cons]
    rw [ih _ (fun e he => h e (List.mem_cons_of_mem _ he))]
    cases ev with
    | OnNavigatedTo => rfl
    | btnDecode_Click => exact (btnDecode_Click_frame lib page).1
    | userTypes text => rfl
    | btnName_Click => exact absurd rfl (h _ (List.mem_cons_self _ _))

/-! ## The claims -/

/-- C1: when the input text is not empty, `btnName_Click` performs exactly one
effect, the writer call with format `QR_CODE` and the whole input text; the
bitmap it returns is stored in `lastBitmap`, the image source is that same
bitmap, and no dialog is shown. -/
theorem btnName_Click_encodes {Fmt Bitmap : Type} (lib : Library Fmt Bitmap)
    (page : MainPage Bitmap) (h : page.txtInputText ≠ "") :
    (btnName_Click lib page).2 = [Effect.write { Format := lib.QR_CODE } page.txtInputText]
    ∧ (btnName_Click lib page).1.lastBitmap
        = lib.Write { Format := lib.QR_CODE } page.txtInputText
    ∧ (btnName_Click lib page).1.imgPlaceHolder = (btnName_Click lib page).1.lastBitmap
    ∧ ∀ e ∈ (btnName_Click lib page).2, e.isDialog = false := by
  have he : IsEmpty page.txtInputText = false := (IsEmpty_false_iff _).2 h
  rw [btnName_Click_of_nonempty lib page he]
  refine ⟨rfl, rfl, rfl, ?_⟩
  intro e hm
  rw [List.mem_singleton.1 hm]
  rfl

theorem btnName_Click_encodes_witness :
    (MainPage.new "abc" "" : MainPage (Nat × String)).txtInputText ≠ ""
    ∧ (btnName_Click sampleLib (MainPage.new "abc" "")).2
        = [Effect.write { Format := sampleLib.QR_CODE } "abc"]
    ∧ (btnName_Click sampleLib (MainPage.new "abc" "")).1.lastBitmap = some (7, "abc")
    ∧ (btnName_Click sampleLib (MainPage.new "abc" "")).1.imgPlaceHolder = some (7, "abc") := by
  have h := btnName_Click_encodes sampleLib (MainPage.new "abc" "") (by decide)
  refine ⟨by decide, h.1, h.2.1, ?_⟩
  rw [h.2.2.1, h.2.1]
  rfl

/-- C2: when the input text is empty, `btnName_Click` shows the dialog
"Plz Enter Some Text ", focuses the input text box, performs nothing else (no
writer call) and leaves the whole page state as it was; and a dialog is among
the effects of `btnName_Click` exactly when the input text is empty. -/
theorem btnName_Click_empty_input {Fmt Bitmap : Type} (lib : Library Fmt Bitmap)
    (page : MainPage Bitmap) :
    (page.txtInputText = "" →
      (btnName_Click lib page).2
          = [Effect.showDialog "Plz Enter Some Text ",
             Effect.focusInputText FocusState.Pointer]
        ∧ (btnName_Click lib page).1 = page)
    ∧ ((∃ e ∈ (btnName_Click lib page).2, e.isDialog = true) ↔ page.txtInputText = "") := by
  constructor
  · intro h
    rw [btnName_Click_of_empty lib page ((IsEmpty_iff _).2 h)]
    exact ⟨rfl, rfl⟩
  · cases he : IsEmpty page.txtInputText
    · rw [btnName_Click_of_nonempty lib page he]
      have hne : page.txtInputText ≠ "" := (IsEmpty_false_iff _).1 he
      simp [Effect.isDialog, hne]
    · rw [btnName_Click_of_empty lib page he]
      have heq : page.txtInputText = "" := (IsEmpty_iff _).1 he
      simp [Effect.isDialog, heq]

theorem btnName_Click_empty_input_witness :
    (btnName_Click sampleLib
        { txtInputText := "", lastBitmap := some (7, "old"),
          imgPlaceHolder := some (7, "old"), txtDecodedText := "old" }).2
      = [Effect.showDialog "Plz Enter Some Text ", Effect.focusInputText FocusState.Pointer]
    ∧ (btnName_Click sampleLib
        { txtInputText := "", lastBitmap := some (7, "old"),
          imgPlaceHolder := some (7, "old"), txtDecodedText := "old" }).1
      = { txtInputText := "", lastBitmap := some (7, "old"),
          imgPlaceHolder := some (7, "old"), txtDecodedText := "old" } :=
  (btnName_Click_empty_input sampleLib
    { txtInputText := "", lastBitmap := some (7, "old"),
      imgPlaceHolder := some (7, "old"), txtDecodedText := "old" }).1 rfl

/-- C3: `btnDecode_Click` performs exactly one effect, the reader call on the
current `lastBitmap` (no dialog); when the reader returns a result the decoded
text becomes the text of the result and nothing else changes, when it returns
null the page state is unchanged; and after any sequence of events `lastBitmap`
is what the writer returned for the text of the most recent accepted
`btnName_Click`, or the starting `lastBitmap` when there was none. -/
theorem btnDecode_Click_decodes {Fmt Bitmap : Type} (lib : Library Fmt Bitmap)
    (page : MainPage Bitmap) :
    (btnDecode_Click lib page).2 = [Effect.decode page.lastBitmap]
    ∧ (∀ r, lib.Decode page.lastBitmap = some r →
        (btnDecode_Click lib page).1 = { page with txtDecodedText := r.Text })
    ∧ (lib.Decode page.lastBitmap = none → (btnDecode_Click lib page).1 = page)
    ∧ (∀ evs, (run lib evs page).1.lastBitmap
        = bitmapOf lib page.lastBitmap (lastEncodedText evs page.txtInputText none)) :=
  ⟨btnDecode_Click_effects lib page,
   fun r h => btnDecode_Click_of_some lib page r h,
   fun h => btnDecode_Click_of_none lib page h,
   fun evs => run_lastBitmap_aux lib page.lastBitmap evs page none rfl⟩

theorem btnDecode_Click_decodes_witness :
    (btnDecode_Click sampleLib
        { txtInputText := "new", lastBitmap := some (7, "abc"),
          imgPlaceHolder := some (7, "abc"), txtDecodedText := "old" }).1
      = { txtInputText := "new", lastBitmap := some (7, "abc"),
          imgPlaceHolder := some (7, "abc"), txtDecodedText := "abc" }
    ∧ (btnDecode_Click blindLib
        { txtInputText := "new", lastBitmap := some (7, "abc"),
          imgPlaceHolder := some (7, "abc"), txtDecodedText := "old" }).1
      = { txtInputText := "new", lastBitmap := some (7, "abc"),
          imgPlaceHolder := some (7, "abc"), txtDecodedText := "old" } :=
  ⟨(btnDecode_Click_decodes sampleLib
      { txtInputText := "new", lastBitmap := some (7, "abc"),
        imgPlaceHolder := some (7, "abc"), txtDecodedText := "old" }).2.1
      { Text := "abc" } rfl,
   (btnDecode_Click_decodes blindLib
      { txtInputText := "new", lastBitmap := some (7, "abc"),
        imgPlaceHolder := some (7, "abc"), txtDecodedText := "old" }).2.2.1 rfl⟩

/-- C4: if the reader, given the bitmap the writer returns for format `QR_CODE`
and a non-empty text `s`, returns a result whose text is `s`, then from a page
whose input text is `s`, `btnName_Click`, then any events other than
`btnName_Click`, then `btnDecode_Click` leave the decoded text equal to `s`. -/
theorem encode_then_decode_roundtrip {Fmt Bitmap : Type} (lib : Library Fmt Bitmap)
    (page : MainPage Bitmap) (h : page.txtInputText ≠ "")
    (hlib : ∃ r, lib.Decode (lib.Write { Format := lib.QR_CODE } page.txtInputText) = some r
      ∧ r.Text = page.txtInputText)
    (mid : List Event) (hmid : ∀ ev ∈ mid, ev ≠ Event.btnName_Click) :
    (run lib (Event.btnName_Click :: (mid ++ [Event.btnDecode_Click])) page).1.txtDecodedText
      = page.txtInputText := by
  obtain ⟨r, hr, ht⟩ := hlib
  have he : IsEmpty page.txtInputText = false := (IsEmpty_false_iff _).2 h
  rw [run_cons, run_append]
  simp only [run_cons, run_nil, step]
  have hb : (run lib mid (btnName_Click lib page).1).1.lastBitmap
      = lib.Write { Format := lib.QR_CODE } page.txtInputText := by
    rw [run_lastBitmap_of_no_encode lib mid _ hmid, btnName_Click_of_nonempty lib page he]
  rw [btnDecode_Click_of_some lib _ r (by rw [hb]; exact hr)]
  exact ht

theorem encode_then_decode_roundtrip_witness :
    (run sampleLib [Event.btnName_Click, Event.userTypes "xyz", Event.btnDecode_Click]
        (MainPage.new "abc" "")).1.txtDecodedText = "abc" :=
  encode_then_decode_roundtrip sampleLib (MainPage.new "abc" "") (by decide)
    ⟨{ Text := "abc" }, rfl, rfl⟩ [Event.userTypes "xyz"] (by decide)

/-- C5: `btnDecode_Click` has no check before its reader call: in every state
its effects are the single call of `Decode` on `lastBitmap`; on a freshly
constructed page, and on a page reached from one by events among which no
`btnName_Click` was accepted, that argument is the null handle. -/
theorem btnDecode_Click_unguarded {Fmt Bitmap : Type} (lib : Library Fmt Bitmap) :
    (∀ page : MainPage Bitmap, (btnDecode_Click lib page).2 = [Effect.decode page.lastBitmap])
    ∧ (∀ a b : String, (btnDecode_Click lib (MainPage.new a b)).2 = [Effect.decode none])
    ∧ (∀ (evs : List Event) (a b : String), lastEncodedText evs a none = none →
        (btnDecode_Click lib (run lib evs (MainPage.new a b)).1).2 = [Effect.decode none]) := by
  refine ⟨fun page => btnDecode_Click_effects lib page,
    fun a b => btnDecode_Click_effects lib _, ?_⟩
  intro evs a b h
  rw [btnDecode_Click_effects]
  have := run_lastBitmap_aux lib none evs (MainPage.new a b) none rfl
  rw [this]
  show [Effect.decode (bitmapOf lib none (lastEncodedText evs a none))] = _
  rw [h]
  rfl

theorem btnDecode_Click_unguarded_witness :
    (btnDecode_Click sampleLib
        (run sampleLib [Event.btnName_Click, Event.OnNavigatedTo, Event.btnName_Click]
          (MainPage.new "" "")).1).2
      = [Effect.decode none] :=
  (btnDecode_Click_unguarded sampleLib).2.2
    [Event.btnName_Click, Event.OnNavigatedTo, Event.btnName_Click] "" "" (by decide)

/-- C6: among the effects of `btnName_Click` there is one writer call when the
input text is not empty and none when it is empty, and never a reader call;
among the effects of `btnDecode_Click` there is one reader call and no writer
call; `OnNavigatedTo` has no effects; and no event makes more than one call
into the library. -/
theorem library_calls_per_click {Fmt Bitmap : Type} (lib : Library Fmt Bitmap)
    (page : MainPage Bitmap) :
    (btnName_Click lib page).2.countP Effect.isWriterCall
        = (if page.txtInputText = "" then 0 else 1)
    ∧ (btnName_Click lib page).2.countP Effect.isReaderCall = 0
    ∧ (btnDecode_Click lib page).2.countP Effect.isReaderCall = 1
    ∧ (btnDecode_Click lib page).2.countP Effect.isWriterCall = 0
    ∧ (@OnNavigatedTo Fmt Bitmap page).2 = []
    ∧ ∀ ev : Event, (step lib page ev).2.countP Effect.isLibraryCall ≤ 1 := by
  have hn : (btnName_Click lib page).2.countP Effect.isWriterCall
        = (if page.txtInputText = "" then 0 else 1)
      ∧ (btnName_Click lib page).2.countP Effect.isReaderCall = 0
      ∧ (btnName_Click lib page).2.countP Effect.isLibraryCall ≤ 1 := by
    cases he : IsEmpty page.txtInputText
    · rw [btnName_Click_of_nonempty lib page he]
      have hne : page.txtInputText ≠ "" := (IsEmpty_false_iff _).1 he
      simp [Effect.isWriterCall, Effect.isReaderCall, Effect.isLibraryCall, hne]
    · rw [btnName_Click_of_empty lib page he]
      have heq : page.txtInputText = "" := (IsEmpty_iff _).1 he
      simp [Effect.isWriterCall, Effect.isReaderCall, Effect.isLibraryCall, heq]
  have hd : (btnDecode_Click lib page).2.countP Effect.isReaderCall = 1
      ∧ (btnDecode_Click lib page).2.countP Effect.isWriterCall = 0
      ∧ (btnDecode_Click lib page).2.countP Effect.isLibraryCall ≤ 1 := by
    rw [btnDecode_Click_effects]
    simp [Effect.isWriterCall, Effect.isReaderCall, Effect.isLibraryCall]
  refine ⟨hn.1, hn.2.1, hd.1, hd.2.1, rfl, ?_⟩
  intro ev
  cases ev with
  | OnNavigatedTo => simp [step, OnNavigatedTo]
  | btnName_Click => exact hn.2.2
  | btnDecode_Click => exact hd.2.2
  | userTypes text => simp [step]

/-- C7: if the image source equals `lastBitmap` before a finite sequence of
events (handler calls and edits of the input text), it equals `lastBitmap`
after it, so the next `btnDecode_Click` calls the reader on the bitmap that is
displayed. -/
theorem image_source_is_lastBitmap {Fmt Bitmap : Type} (lib : Library Fmt Bitmap)
    (page : MainPage Bitmap) (h : page.imgPlaceHolder = page.lastBitmap) (evs : List Event) :
    (run lib evs page).1.imgPlaceHolder = (run lib evs page).1.lastBitmap
    ∧ (btnDecode_Click lib (run lib evs page).1).2
        = [Effect.decode (run lib evs page).1.imgPlaceHolder] := by
  have hi := run_invariant lib evs page h
  exact ⟨hi, by rw [btnDecode_Click_effects, hi]⟩

theorem image_source_is_lastBitmap_witness :
    (MainPage.new "abc" "" : MainPage (Nat × String)).imgPlaceHolder
        = (MainPage.new "abc" "" : MainPage (Nat × String)).lastBitmap
    ∧ (run sampleLib [Event.btnName_Click, Event.btnDecode_Click, Event.userTypes "",
          Event.btnName_Click, Event.OnNavigatedTo] (MainPage.new "abc" "")).1.imgPlaceHolder
      = (run sampleLib [Event.btnName_Click, Event.btnDecode_Click, Event.userTypes "",
          Event.btnName_Click, Event.OnNavigatedTo] (MainPage.new "abc" "")).1.lastBitmap :=
  ⟨rfl, (image_source_is_lastBitmap sampleLib (MainPage.new "abc" "") rfl
    [Event.btnName_Click, Event.btnDecode_Click, Event.userTypes "",
      Event.btnName_Click, Event.OnNavigatedTo]).1⟩

/-- C8: `btnDecode_Click` leaves `lastBitmap`, the image source and the input
text as they were; `btnName_Click` leaves the decoded text and the input text as
they were; `OnNavigatedTo` leaves the page as it was and has no effects; so
after a `btnDecode_Click` that got a result, any events other than
`btnDecode_Click` (a new accepted `btnName_Click` among them) leave the decoded
text equal to the text of that result. -/
theorem handler_frames {Fmt Bitmap : Type} (lib : Library Fmt Bitmap)
    (page : MainPage Bitmap) :
    ((btnDecode_Click lib page).1.lastBitmap = page.lastBitmap
      ∧ (btnDecode_Click lib page).1.imgPlaceHolder = page.imgPlaceHolder
      ∧ (btnDecode_Click lib page).1.txtInputText = page.txtInputText)
    ∧ ((btnName_Click lib page).1.txtDecodedText = page.txtDecodedText
      ∧ (btnName_Click lib page).1.txtInputText = page.txtInputText)
    ∧ @OnNavigatedTo Fmt Bitmap page = (page, [])
    ∧ (∀ (r : Result) (evs : List Event), lib.Decode page.lastBitmap = some r →
        (∀ ev ∈ evs, ev ≠ Event.btnDecode_Click) →
        (run lib (Event.btnDecode_Click :: evs) page).1.txtDecodedText = r.Text) := by
  refine ⟨btnDecode_Click_frame lib page, btnName_Click_frame lib page, rfl, ?_⟩
  intro r evs hr hevs
  rw [run_cons, run_txtDecodedText lib evs _ hevs]
  show (btnDecode_Click lib page).1.txtDecodedText = r.Text
  rw [btnDecode_Click_of_some lib page r hr]

theorem handler_frames_witness :
    (run sampleLib [Event.btnDecode_Click, Event.userTypes "second", Event.btnName_Click]
        { txtInputText := "first", lastBitmap := some (7, "first"),
          imgPlaceHolder := some (7, "first"), txtDecodedText := "" }).1.txtDecodedText
      = "first" :=
  (handler_frames sampleLib
    { txtInputText := "first", lastBitmap := some (7, "first"),
      imgPlaceHolder := some (7, "first"), txtDecodedText := "" }).2.2.2
    { Text := "first" } [Event.userTypes "second", Event.btnName_Click] rfl (by decide)

/-- C9: when the input text has at least one character, whatever the
characters are, `btnName_Click` performs exactly one effect, the writer call
with format `QR_CODE` and the input text as it is; `lastBitmap` and the image
source both become the bitmap the writer returned; no dialog is shown. -/
theorem btnName_Click_rejects_only_empty {Fmt Bitmap : Type} (lib : Library Fmt Bitmap)
    (page : MainPage Bitmap) (h : 1 ≤ page.txtInputText.length) :
    (btnName_Click lib page).2 = [Effect.write { Format := lib.QR_CODE } page.txtInputText]
    ∧ (btnName_Click lib page).1.lastBitmap
        = lib.Write { Format := lib.QR_CODE } page.txtInputText
    ∧ (btnName_Click lib page).1.imgPlaceHolder
        = lib.Write { Format := lib.QR_CODE } page.txtInputText
    ∧ (btnName_Click lib page).2.countP Effect.isDialog = 0 := by
  rw [btnName_Click_of_nonempty lib page (IsEmpty_false_of_length _ h)]
  exact ⟨rfl, rfl, rfl, by simp [Effect.isDialog]⟩

theorem btnName_Click_rejects_only_empty_witness :
    1 ≤ (" \t\n").length
    ∧ (btnName_Click sampleLib
        { txtInputText := " \t\n", lastBitmap := none,
          imgPlaceHolder := none, txtDecodedText := "" }).2
      = [Effect.write { Format := 7 } " \t\n"]
    ∧ (btnName_Click sampleLib
        { txtInputText := " \t\n", lastBitmap := none,
          imgPlaceHolder := none, txtDecodedText := "" }).1.lastBitmap
      = some (7, " \t\n") := by
  have h := btnName_Click_rejects_only_empty sampleLib
    { txtInputText := " \t\n", lastBitmap := none,
      imgPlaceHolder := none, txtDecodedText := "" } (by decide)
  exact ⟨by decide, h.1, h.2.1⟩

end WindowsStoreCppDemo
